import Mathlib

/-!
Verification of the asynchronous job lifecycle and quota-gated dispatch
system of the Financials-AI repository.

The client-side polling protocol, the thunk error mapping and the upload
progress handler are embedded from the TypeScript sources
(`src/frontend/src/store/slices/searchSlice.ts` and the older
`uploadSlice.ts` generation kept as `src/unnamed/part_013`).  The Job
Store and the Quota Ledger live in the backend, which is not part of the
visible sources; they are modelled from the specification (sections 3,
4.1, 4.2) and from `src/documentation_token.md`.
-/

namespace FinancialsAI

/-- Result of one `reportService.getReport` call as observed by the
polling loop: either a report (represented by its `status` string) or a
thrown request error (the `catch` path). -/
inductive QueryResult where
  | ok (st : String)
  | failure
  deriving DecidableEq, Repr

/-- Final outcome of one run of a `pollReportStatus` thunk.  `fulfilled`
carries the returned report (as its status string, `none` for a `null`
report); the two rejection constructors record which `rejectWithValue`
site produced the rejection, together with its message. -/
inductive Outcome where
  | fulfilled (r : Option String)
  | rejectedTimeout (msg : String)
  | rejectedQueryError (msg : String)
  deriving DecidableEq, Repr

/-- Externally visible action of the polling loop: a timer wait of `ms`
milliseconds, or the `i`-th `getReport` read.  The loop performs no
other action; in particular it has no job-store mutation action. -/
inductive Event where
  | wait (ms : Nat)
  | query (i : Nat)
  deriving DecidableEq, Repr

/-- `maxAttempts = 30` in both implementations. -/
def maxAttempts : Nat := 30

/-- `pollInterval = 2000` (milliseconds) in both implementations. -/
def pollInterval : Nat := 2000

/-- Timeout rejection message of the `searchSlice.ts` implementation. -/
def timeoutMsg : String :=
  "Report processing is taking longer than expected. Please check back later."

/-- In-loop query-failure rejection message of the `searchSlice.ts`
implementation. -/
def pollFailMsg : String := "Failed to check report status during polling."

/-- Timeout rejection message of the `part_013` implementation. -/
def timeout13Msg : String := "Report processing timeout"

/-- Default query-failure rejection message of the `part_013`
implementation (`error.response?.data?.detail` absent). -/
def fail13Msg : String := "Failed to check report status"

/-- Loop body of `pollReportStatus` from `searchSlice.ts`.  `s i` is the
result of the `i`-th `getReport` call (1-indexed), `lastR` the current
value of the `report` variable, `attempts` the current attempt counter
and `fuel` the remaining loop iterations (`maxAttempts - attempts` at
the top-level call, which makes the `fuel = 0` branch coincide with the
`while` guard failing on `attempts`).  Each iteration waits one
interval, increments `attempts`, queries, rejects on a thrown query
error, returns the report on a non-`pending` status and otherwise
repeats.  On loop exit with `attempts >= maxAttempts` it rejects with
the timeout message, otherwise it returns the last report. -/
def pollFrom (s : Nat → QueryResult) (lastR : Option String) :
    Nat → Nat → List Event × Outcome
  | attempts, 0 =>
    ([], if maxAttempts ≤ attempts then .rejectedTimeout timeoutMsg
         else .fulfilled lastR)
  | attempts, fuel + 1 =>
    if maxAttempts ≤ attempts then ([], .rejectedTimeout timeoutMsg)
    else
      match s (attempts + 1) with
      | .failure =>
        ([.wait pollInterval, .query (attempts + 1)],
         .rejectedQueryError pollFailMsg)
      | .ok st =>
        if st = "pending" then
          let r := pollFrom s (some st) (attempts + 1) fuel
          (.wait pollInterval :: .query (attempts + 1) :: r.1, r.2)
        else
          ([.wait pollInterval, .query (attempts + 1)],
           .fulfilled (some st))

/-- The `pollReportStatus` thunk of `searchSlice.ts`: `report = null`,
`status = 'pending'`, `attempts = 0` initially; the `while` loop runs at
most `maxAttempts` times. -/
def pollReportStatus (s : Nat → QueryResult) : List Event × Outcome :=
  pollFrom s none 0 maxAttempts

/-- Loop body of `pollReportStatus` from `src/unnamed/part_013`.  This
generation queries first and waits after: each iteration queries
(`s (attempts + 1)`), returns the report on a non-`processing` status,
otherwise waits one interval and increments `attempts`.  A thrown query
error escapes to the surrounding `catch`, which rejects with the detail
or the default message; on loop exit with `attempts >= maxAttempts` it
rejects with its timeout message, otherwise it returns `null`. -/
def poll13From (s : Nat → QueryResult) :
    Nat → Nat → List Event × Outcome
  | attempts, 0 =>
    ([], if maxAttempts ≤ attempts then .rejectedTimeout timeout13Msg
         else .fulfilled none)
  | attempts, fuel + 1 =>
    if maxAttempts ≤ attempts then ([], .rejectedTimeout timeout13Msg)
    else
      match s (attempts + 1) with
      | .failure =>
        ([.query (attempts + 1)], .rejectedQueryError fail13Msg)
      | .ok st =>
        if st = "processing" then
          let r := poll13From s (attempts + 1) fuel
          (.query (attempts + 1) :: .wait pollInterval :: r.1, r.2)
        else
          ([.query (attempts + 1)], .fulfilled (some st))

/-- The `pollReportStatus` thunk of `part_013`: `status = 'processing'`,
`attempts = 0` initially. -/
def pollReportStatus13 (s : Nat → QueryResult) : List Event × Outcome :=
  poll13From s 0 maxAttempts

/-- Is this event a `getReport` read? -/
def isQueryEvent : Event → Bool
  | .query _ => true
  | .wait _ => false

/-- Number of `getReport` calls recorded in a trace. -/
def countQueries (es : List Event) : Nat :=
  (es.filter isQueryEvent).length

/-- A trace is a sequence of (wait one `pollInterval`, then query)
pairs: every query is preceded by exactly one fixed-length wait. -/
def alternatingWQ : List Event → Bool
  | [] => true
  | .wait m :: .query _ :: rest => (m == pollInterval) && alternatingWQ rest
  | _ => false

/-- The renaming between the two generations of the status vocabulary:
`part_013` loops on `processing` where `searchSlice.ts` loops on
`pending`; every other status string is kept. -/
def statusSwap (st : String) : String :=
  if st = "pending" then "processing"
  else if st = "processing" then "pending"
  else st

/-- `statusSwap` lifted to query results. -/
def swapQR : QueryResult → QueryResult
  | .ok st => .ok (statusSwap st)
  | .failure => .failure

/-- Correspondence between an outcome of the `part_013` implementation
and one of the `searchSlice.ts` implementation: same outcome kind
(returned report / timeout rejection / query-error rejection), with
returned reports related by `statusSwap`. -/
def outcomeRel : Outcome → Outcome → Prop
  | .fulfilled r, .fulfilled r' => r' = r.map statusSwap
  | .rejectedTimeout _, .rejectedTimeout _ => True
  | .rejectedQueryError _, .rejectedQueryError _ => True
  | _, _ => False

/-- Status sequence on which every attempt observes `pending`. -/
def seqAllPending : Nat → QueryResult := fun _ => .ok "pending"

/-- Status sequence on which every attempt observes `processing`, the
in-progress (Running) status declared by
`src/frontend/src/types/index.ts`. -/
def seqAllProcessing : Nat → QueryResult := fun _ => .ok "processing"

/-- Status sequence observing `pending` on the first 29 attempts and
`processing` on the 30th: the whole attempt budget is used and every
observation is non-terminal. -/
def seqLateProcessing : Nat → QueryResult := fun i =>
  if i ≤ 29 then .ok "pending" else .ok "processing"

/-- Status sequence whose first query fails (a transient error) while
every later query would report the terminal status `processed`. -/
def seqFirstFails : Nat → QueryResult := fun i =>
  if i = 1 then .failure else .ok "processed"

/-- A successful query observation of a non-terminal status (Pending or
Running): the report is returned with a status that is neither the
succeeded status (`processed` in the `searchSlice.ts` generation,
`completed` in the `part_013` generation) nor `failed`. -/
def nonTerminalB : QueryResult → Bool
  | .ok st => st ≠ "processed" && st ≠ "completed" && st ≠ "failed"
  | .failure => false

/-! ## Thunk rejection mapping (`triggerValuation`, `uploadPdfFile`)

From `src/frontend/src/store/slices/searchSlice.ts`.  An `AxiosError`
with a response is modelled by its HTTP status together with the
optional `response.data?.detail` and `error.message` strings; any other
thrown value (no response, non-Axios error) is `other`.  A JS string
that is absent or empty is falsy under `||`; an absent-or-empty field
is modelled as `none`. -/

/-- A request failure as discriminated by the thunk `catch` blocks. -/
inductive ApiFailure where
  | http (status : Nat) (detail : Option String) (message : Option String)
  | other
  deriving DecidableEq, Repr

/-- Result of a thunk: fulfilled payload or `rejectWithValue` message. -/
inductive ThunkResult where
  | ok (payload : String)
  | rejected (msg : String)
  deriving DecidableEq, Repr

/-- JS `a || b` on an optional string (absent or empty is falsy). -/
def jsOr (a : Option String) (b : String) : String :=
  match a with
  | some s => if s = "" then b else s
  | none => b

/-- Default message of the 429 branch of `triggerValuation`. -/
def monthlyValuationLimitMsg : String :=
  "You have reached your monthly valuation limit."

/-- Default message of the generic API-error branch of
`triggerValuation`. -/
def valuationFailMsg : String := "Failed to trigger valuation"

/-- Message of the non-API-error branch of `triggerValuation`. -/
def valuationUnexpectedMsg : String :=
  "An unexpected error occurred during valuation request."

/-- Default message of the 429 branch of `uploadPdfFile`. -/
def monthlyUploadLimitMsg : String :=
  "You have reached your monthly upload limit."

/-- Default message of the generic API-error branch of
`uploadPdfFile`. -/
def uploadFailMsg : String := "Failed to upload PDF file"

/-- Message of the non-API-error branch of `uploadPdfFile`. -/
def uploadUnexpectedMsg : String :=
  "An unexpected error occurred during upload."

/-- Outcome mapping of the `triggerValuation` thunk: a successful
service response is returned as the payload; a 429 response rejects
with the server detail or the monthly-limit default; another API error
rejects with detail, else `error.message`, else the generic default; a
non-API error rejects with the unexpected-error message. -/
def triggerValuationResult : Except ApiFailure String → ThunkResult
  | .ok resp => .ok resp
  | .error (.http 429 d _) => .rejected (jsOr d monthlyValuationLimitMsg)
  | .error (.http _ d m) => .rejected (jsOr d (jsOr m valuationFailMsg))
  | .error .other => .rejected valuationUnexpectedMsg

/-- Outcome mapping of the `uploadPdfFile` thunk (`searchSlice.ts`
generation): a 429 response rejects with the server detail or the
monthly-upload default; another API error rejects with detail or the
generic default; a non-API error rejects with the unexpected-error
message. -/
def uploadPdfResult : Except ApiFailure String → ThunkResult
  | .ok reportId => .ok reportId
  | .error (.http 429 d _) => .rejected (jsOr d monthlyUploadLimitMsg)
  | .error (.http _ d _) => .rejected (jsOr d uploadFailMsg)
  | .error .other => .rejected uploadUnexpectedMsg

/-- One invocation of `triggerValuation` performs exactly one
`searchService.valuateCompany` request (the thunk body has no retry
loop); the pair records the number of requests issued and the result of
mapping the single response. -/
def triggerValuationRun (svc : Nat → Except ApiFailure String) :
    Nat × ThunkResult :=
  (1, triggerValuationResult (svc 0))

/-- One invocation of `uploadPdfFile` performs exactly one
`processService.uploadPdf` request. -/
def uploadPdfRun (svc : Nat → Except ApiFailure String) :
    Nat × ThunkResult :=
  (1, uploadPdfResult (svc 0))

/-! ## Upload progress handler

From `uploadPdfFile` in `searchSlice.ts`: for each progress event,
`total = progressEvent.total || file.size`; if `total > 0` the handler
dispatches `Math.round(loaded * 100 / total)`, else it dispatches 0. -/

/-- JS `a || b` on numbers where `a` may be absent: `0` and `undefined`
are falsy. -/
def jsOrNum (a : Option Nat) (b : Nat) : Nat :=
  match a with
  | some n => if n = 0 then b else n
  | none => b

/-- `Math.round (a / b)` over the non-negative rationals, as an
optional number: `none` models the non-finite result (NaN or Infinity)
of a zero divisor.  For `b > 0` the value is
`⌊a / b + 1 / 2⌋ = (2 * a + b) / (2 * b)` in integer arithmetic. -/
def jsRoundDiv (a b : Nat) : Option Nat :=
  if b = 0 then none else some ((2 * a + b) / (2 * b))

/-- The `onUploadProgress` callback of `uploadPdfFile`
(`searchSlice.ts` generation): the value handed to `setProgress` for a
progress event with `loaded` bytes, optional `total`, and `file.size`
fallback. -/
def uploadProgressEvent (loaded : Nat) (total : Option Nat)
    (fileSize : Nat) : Option Nat :=
  let t := jsOrNum total fileSize
  if 0 < t then jsRoundDiv (loaded * 100) t else some 0

/-! ## Job Store and state machine

Modelled from the spec: the backend Job Store (spec sections 3, 4.2) is
not among the visible sources — only its client is — so `Job`,
`markRunning`, `complete` and `fail` follow the spec contract: state
machine `Pending -> Running -> {Succeeded, Failed}` with the direct
edges `Pending -> {Succeeded, Failed}`; the three mutators no-op on a
terminal job. -/

/-- Modelled from the spec: the closed job state enumeration. -/
inductive JobState where
  | pending
  | running
  | succeeded
  | failed
  deriving DecidableEq, Repr

/-- Is this state `Succeeded` or `Failed`? -/
def JobState.isTerminal : JobState → Bool
  | .succeeded => true
  | .failed => true
  | _ => false

/-- Modelled from the spec: the durable job record (spec section 3). -/
structure Job where
  id : Nat
  owner_id : Nat
  input_ref : String
  state : JobState
  result_ref : Option String
  error : Option String
  created_at : Nat
  updated_at : Nat
  deriving DecidableEq, Repr

/-- Modelled from the spec: `MarkRunning(job_id)` — idempotent no-op if
already `Running` or terminal; otherwise `Pending -> Running`. -/
def markRunning (j : Job) (now : Nat) : Job :=
  if j.state = .pending then { j with state := .running, updated_at := now }
  else j

/-- Modelled from the spec: `Complete(job_id, result_ref)` — transitions
to `Succeeded` iff the current state is non-terminal; otherwise
no-op. -/
def complete (j : Job) (r : String) (now : Nat) : Job :=
  if j.state.isTerminal then j
  else { j with state := .succeeded, result_ref := some r, updated_at := now }

/-- Modelled from the spec: `Fail(job_id, error)` — transitions to
`Failed` iff the current state is non-terminal; otherwise no-op. -/
def fail (j : Job) (e : String) (now : Nat) : Job :=
  if j.state.isTerminal then j
  else { j with state := .failed, error := some e, updated_at := now }

/-- A Job Store write request: one of the three mutators with its
arguments and its wall-clock time. -/
inductive JobOp where
  | opRun (now : Nat)
  | opComplete (r : String) (now : Nat)
  | opFail (e : String) (now : Nat)
  deriving DecidableEq, Repr

/-- Apply one write request to one job record. -/
def applyJobOp (j : Job) : JobOp → Job
  | .opRun now => markRunning j now
  | .opComplete r now => complete j r now
  | .opFail e now => fail j e now

/-- Modelled from the spec: the Job Store maps job ids to records. -/
def JobStore : Type := Nat → Option Job

/-- Apply one write request addressed to `id` to the store: the record
under `id`, when present, is put through the mutator; every other
record is untouched. -/
def storeApply (st : JobStore) (id : Nat) (op : JobOp) : JobStore :=
  fun i => if i = id then (st i).map (fun j => applyJobOp j op) else st i

/-- Apply a sequence of write requests addressed to `id`. -/
def storeApplyAll (st : JobStore) (id : Nat) (ops : List JobOp) : JobStore :=
  ops.foldl (fun s op => storeApply s id op) st

/-! ## Quota Ledger

Modelled from the spec: the backend Quota Ledger
(`backend/utils/usage_limiter.py`, spec sections 3, 4.1) is not among
the visible sources; `src/documentation_token.md` documents its
behaviour.  Time is a calendar period index (the month) together with
an offset inside the period; the start of the period containing `t` is
the same period at offset 0 (the first day of the month). -/

/-- Modelled from the spec: an instant, as the index of the calendar
period (month) containing it plus an offset within that period. -/
structure QTime where
  period : Nat
  offset : Nat
  deriving DecidableEq, Repr

/-- The first instant of the calendar period containing `t`. -/
def QTime.periodStart (t : QTime) : QTime := ⟨t.period, 0⟩

/-- Modelled from the spec: one Quota Ledger entry (spec section 3);
`limit` is external configuration, so it is passed to the operations
rather than stored. -/
structure LedgerEntry where
  window_start : QTime
  used : Nat
  deriving DecidableEq, Repr

/-- Result of an admission attempt. -/
inductive AdmitResult where
  | admitted
  | denied (reason : String)
  deriving DecidableEq, Repr

/-- Modelled from the spec: lazily create or roll over the entry — if
there is no entry yet, or the current calendar period differs from the
one containing `window_start`, the entry becomes
`{window_start := start of current period, used := 0}`. -/
def rolloverEntry (e : Option LedgerEntry) (now : QTime) : LedgerEntry :=
  match e with
  | none => ⟨now.periodStart, 0⟩
  | some e =>
    if e.window_start.period ≠ now.period then ⟨now.periodStart, 0⟩ else e

/-- Modelled from the spec: `TryAdmit(owner_id, units)` for one owner —
roll the entry over, then admit and increment `used` when
`used + units <= limit`, else deny with `quota_exceeded` leaving `used`
unchanged.  The rollover-then-check sequence is one atomic step; per
the spec concurrency contract, concurrent calls for one owner
serialize, so an execution is a sequence of these steps. -/
def tryAdmitUnits (e : Option LedgerEntry) (now : QTime)
    (units limit : Nat) : LedgerEntry × AdmitResult :=
  let e' := rolloverEntry e now
  if e'.used + units ≤ limit then
    ({ e' with used := e'.used + units }, .admitted)
  else
    (e', .denied "quota_exceeded")

/-- Modelled from the spec: `n` concurrent `TryAdmit(owner_id, 1)`
calls under the mandated per-key serialization — the calls execute as
`n` consecutive atomic steps on the shared entry; the list collects the
result returned to each caller. -/
def runConcurrent (e : LedgerEntry) (now : QTime) (limit : Nat) :
    Nat → LedgerEntry × List AdmitResult
  | 0 => (e, [])
  | n + 1 =>
    let step := tryAdmitUnits (some e) now 1 limit
    let rest := runConcurrent step.1 now limit n
    (rest.1, step.2 :: rest.2)

/-- Is this event a timer wait? -/
def isWaitEvent : Event → Bool
  | .wait _ => true
  | .query _ => false

/-! ## Helper lemmas about the polling loop -/

theorem countQueries_nil : countQueries [] = 0 := rfl

theorem countQueries_cons_wait (m : Nat) (es : List Event) :
    countQueries (.wait m :: es) = countQueries es := rfl

theorem countQueries_cons_query (i : Nat) (es : List Event) :
    countQueries (.query i :: es) = countQueries es + 1 := by
  simp [countQueries, List.filter, isQueryEvent]

/-- Every trace of the `searchSlice.ts` loop is a sequence of
(wait `pollInterval`, query) pairs with at most `fuel` queries. -/
theorem pollFrom_alternating (s : Nat → QueryResult) :
    ∀ fuel attempts lastR,
      alternatingWQ (pollFrom s lastR attempts fuel).1 = true ∧
      countQueries (pollFrom s lastR attempts fuel).1 ≤ fuel := by
  intro fuel
  induction fuel with
  | zero =>
    intro attempts lastR
    simp [pollFrom, alternatingWQ, countQueries]
  | succ n ih =>
    intro attempts lastR
    by_cases h : maxAttempts ≤ attempts
    · simp [pollFrom, h, alternatingWQ, countQueries]
    · cases hq : s (attempts + 1) with
      | failure =>
        simp [pollFrom, h, hq, alternatingWQ, countQueries, isQueryEvent]
      | ok st =>
        by_cases hst : st = "pending"
        · subst hst
          have ihr := ih (attempts + 1) (some "pending")
          simp only [pollFrom, h, hq, if_false, if_true, reduceIte] at ihr ⊢
          simp only [alternatingWQ, countQueries_cons_wait,
            countQueries_cons_query, beq_self_eq_true, Bool.true_and]
          exact ⟨ihr.1, by omega⟩
        · simp [pollFrom, h, hq, hst, alternatingWQ, countQueries, isQueryEvent]

/-- If every attempt up to the budget observes `pending`, the
`searchSlice.ts` loop uses all remaining attempts and rejects with the
timeout message. -/
theorem pollFrom_timeout (s : Nat → QueryResult) :
    ∀ fuel attempts lastR, attempts + fuel = maxAttempts →
      (∀ i, attempts < i → i ≤ maxAttempts → s i = .ok "pending") →
      (pollFrom s lastR attempts fuel).2 = .rejectedTimeout timeoutMsg ∧
      countQueries (pollFrom s lastR attempts fuel).1 = fuel := by
  intro fuel
  induction fuel with
  | zero =>
    intro attempts lastR h hs
    have hge : maxAttempts ≤ attempts := by omega
    simp [pollFrom, hge, countQueries]
  | succ n ih =>
    intro attempts lastR h hs
    have hlt : ¬ maxAttempts ≤ attempts := by omega
    have hq : s (attempts + 1) = .ok "pending" := hs _ (by omega) (by omega)
    have ihr := ih (attempts + 1) (some "pending") (by omega)
      (fun i h1 h2 => hs i (by omega) h2)
    simp only [pollFrom, hlt, if_false, hq, reduceIte] at ihr ⊢
    simp only [countQueries_cons_wait, countQueries_cons_query]
    exact ⟨ihr.1, by omega⟩

/-- If attempts before `k` observe `pending` and the `k`-th query
throws, the `searchSlice.ts` loop stops at attempt `k` with the in-loop
query-error rejection. -/
theorem pollFrom_firstFailure (s : Nat → QueryResult) :
    ∀ fuel attempts lastR k, attempts < k → k ≤ attempts + fuel →
      attempts + fuel ≤ maxAttempts →
      (∀ i, attempts < i → i < k → s i = .ok "pending") →
      s k = .failure →
      (pollFrom s lastR attempts fuel).2 = .rejectedQueryError pollFailMsg ∧
      countQueries (pollFrom s lastR attempts fuel).1 + attempts = k := by
  intro fuel
  induction fuel with
  | zero =>
    intro attempts lastR k h1 h2 h3 hs hk
    omega
  | succ n ih =>
    intro attempts lastR k h1 h2 h3 hs hk
    have hlt : ¬ maxAttempts ≤ attempts := by omega
    by_cases he : attempts + 1 = k
    · have hq : s (attempts + 1) = .failure := by rw [he]; exact hk
      simp only [pollFrom, hlt, if_false, hq, reduceIte]
      refine ⟨trivial, ?_⟩
      simp only [countQueries_cons_wait, countQueries_cons_query,
        countQueries_nil]
      omega
    · have hq : s (attempts + 1) = .ok "pending" :=
        hs _ (by omega) (by omega)
      have ihr := ih (attempts + 1) (some "pending") k (by omega) (by omega)
        (by omega) (fun i hi1 hi2 => hs i (by omega) hi2) hk
      simp only [pollFrom, hlt, if_false, hq, reduceIte] at ihr ⊢
      simp only [countQueries_cons_wait, countQueries_cons_query]
      exact ⟨ihr.1, by omega⟩

/-- If attempts before `k` observe `pending` and the `k`-th query
returns a non-`pending` status, the `searchSlice.ts` loop stops at
attempt `k` fulfilling with that report. -/
theorem pollFrom_firstOk (s : Nat → QueryResult) :
    ∀ fuel attempts lastR k st, attempts < k → k ≤ attempts + fuel →
      attempts + fuel ≤ maxAttempts →
      (∀ i, attempts < i → i < k → s i = .ok "pending") →
      s k = .ok st → st ≠ "pending" →
      (pollFrom s lastR attempts fuel).2 = .fulfilled (some st) ∧
      countQueries (pollFrom s lastR attempts fuel).1 + attempts = k := by
  intro fuel
  induction fuel with
  | zero =>
    intro attempts lastR k st h1 h2 h3 hs hk hst
    omega
  | succ n ih =>
    intro attempts lastR k st h1 h2 h3 hs hk hst
    have hlt : ¬ maxAttempts ≤ attempts := by omega
    by_cases he : attempts + 1 = k
    · have hq : s (attempts + 1) = .ok st := by rw [he]; exact hk
      simp only [pollFrom, hlt, if_false, hq, reduceIte, hst]
      refine ⟨trivial, ?_⟩
      simp only [countQueries_cons_wait, countQueries_cons_query,
        countQueries_nil]
      omega
    · have hq : s (attempts + 1) = .ok "pending" :=
        hs _ (by omega) (by omega)
      have ihr := ih (attempts + 1) (some "pending") k st (by omega) (by omega)
        (by omega) (fun i hi1 hi2 => hs i (by omega) hi2) hk hst
      simp only [pollFrom, hlt, if_false, hq, reduceIte] at ihr ⊢
      simp only [countQueries_cons_wait, countQueries_cons_query]
      exact ⟨ihr.1, by omega⟩

/-- The status renaming never maps a non-`processing` status to the
status the `searchSlice.ts` loop repeats on. -/
theorem statusSwap_ne_pending (st : String) (h : st ≠ "processing") :
    statusSwap st ≠ "pending" := by
  unfold statusSwap
  by_cases h1 : st = "pending"
  · simp [h1]
  · simp [h1, h]

/-- Relational invariant of the two polling loops: from equal counters,
`part_013` on `s` and `searchSlice.ts` on the renamed sequence produce
related outcomes after the same number of queries. -/
theorem pollRel (s : Nat → QueryResult) :
    ∀ fuel attempts lastR, maxAttempts ≤ attempts + fuel →
      outcomeRel (poll13From s attempts fuel).2
        (pollFrom (fun i => swapQR (s i)) lastR attempts fuel).2 ∧
      countQueries (poll13From s attempts fuel).1 =
        countQueries (pollFrom (fun i => swapQR (s i)) lastR attempts fuel).1 := by
  intro fuel
  induction fuel with
  | zero =>
    intro attempts lastR h
    have hge : maxAttempts ≤ attempts := by omega
    simp [poll13From, pollFrom, hge, outcomeRel, countQueries]
  | succ n ih =>
    intro attempts lastR h
    by_cases hge : maxAttempts ≤ attempts
    · simp [poll13From, pollFrom, hge, outcomeRel, countQueries]
    · cases hq : s (attempts + 1) with
      | failure =>
        have e13 : poll13From s attempts (n + 1) =
            ([.query (attempts + 1)], .rejectedQueryError fail13Msg) := by
          simp [poll13From, hge, hq]
        have eS : pollFrom (fun i => swapQR (s i)) lastR attempts (n + 1) =
            ([.wait pollInterval, .query (attempts + 1)],
             .rejectedQueryError pollFailMsg) := by
          simp [pollFrom, hge, hq, swapQR]
        rw [e13, eS]
        exact ⟨by simp [outcomeRel], by
          simp [countQueries_cons_wait, countQueries_cons_query,
            countQueries_nil]⟩
      | ok st =>
        by_cases hst : st = "processing"
        · subst hst
          have e13 : poll13From s attempts (n + 1) =
              (.query (attempts + 1) :: .wait pollInterval ::
                 (poll13From s (attempts + 1) n).1,
               (poll13From s (attempts + 1) n).2) := by
            simp [poll13From, hge, hq]
          have eS : pollFrom (fun i => swapQR (s i)) lastR attempts (n + 1) =
              (.wait pollInterval :: .query (attempts + 1) ::
                 (pollFrom (fun i => swapQR (s i)) (some "pending")
                   (attempts + 1) n).1,
               (pollFrom (fun i => swapQR (s i)) (some "pending")
                 (attempts + 1) n).2) := by
            simp [pollFrom, hge, hq, swapQR, statusSwap]
          have ihr := ih (attempts + 1) (some "pending") (by omega)
          rw [e13, eS]
          refine ⟨ihr.1, ?_⟩
          simp only [countQueries_cons_wait, countQueries_cons_query]
          omega
        · have hsw : ¬ statusSwap st = "pending" := statusSwap_ne_pending st hst
          have e13 : poll13From s attempts (n + 1) =
              ([.query (attempts + 1)], .fulfilled (some st)) := by
            simp [poll13From, hge, hq, hst]
          have eS : pollFrom (fun i => swapQR (s i)) lastR attempts (n + 1) =
              ([.wait pollInterval, .query (attempts + 1)],
               .fulfilled (some (statusSwap st))) := by
            simp [pollFrom, hge, hq, swapQR, hsw]
          rw [e13, eS]
          exact ⟨by simp [outcomeRel], by
            simp [countQueries_cons_wait, countQueries_cons_query,
              countQueries_nil]⟩

/-! ## Helper lemmas about the Job Store -/

/-- A terminal job absorbs every later write request. -/
theorem applyJobOp_terminal (j : Job) (op : JobOp)
    (h : j.state.isTerminal = true) : applyJobOp j op = j := by
  cases op with
  | opRun now =>
    have hp : ¬ j.state = .pending := by
      intro hs
      rw [hs] at h
      simp [JobState.isTerminal] at h
    simp [applyJobOp, markRunning, hp]
  | opComplete r now => simp [applyJobOp, complete, h]
  | opFail e now => simp [applyJobOp, fail, h]

/-- Applying a write sequence to a store keeps a terminal record
unchanged. -/
theorem storeApplyAll_terminal (id : Nat) (j : Job)
    (h : j.state.isTerminal = true) :
    ∀ (ops : List JobOp) (st : JobStore), st id = some j →
      storeApplyAll st id ops id = some j := by
  intro ops
  induction ops with
  | nil => intro st hst; exact hst
  | cons op rest ih =>
    intro st hst
    have hst' : storeApply st id op id = some j := by
      simp [storeApply, hst, applyJobOp_terminal j op h]
    exact ih (storeApply st id op) hst'

/-! ## Helper lemmas about the Quota Ledger -/

/-- Once `used` has reached the limit inside the current period, every
further call in the serialized batch is denied and leaves the entry
unchanged. -/
theorem runConcurrent_exhausted (t : QTime) (L : Nat) :
    ∀ (n : Nat) (e : LedgerEntry), e.window_start.period = t.period →
      L < e.used + 1 →
      runConcurrent e t L n = (e, List.replicate n (.denied "quota_exceeded")) := by
  intro n
  induction n with
  | zero => intro e hp hL; simp [runConcurrent]
  | succ m ih =>
    intro e hp hL
    have hstep : tryAdmitUnits (some e) t 1 L = (e, .denied "quota_exceeded") := by
      simp [tryAdmitUnits, rolloverEntry, hp, Nat.not_le.mpr hL]
    simp [runConcurrent, hstep, ih e hp hL, List.replicate_succ]

/-! ## Claims -/

/-- C1: once a job's state is terminal (`Succeeded` or `Failed`), every
later `Complete`, `Fail` or `MarkRunning` write addressed to that job
id is a no-op: the stored record — state, result_ref, error and
updated_at included — never changes again, so the terminal transition
is committed exactly once even if completion is reported more than
once. -/
theorem C1_terminal_writes_noop (st : JobStore) (id : Nat) (j : Job)
    (ops : List JobOp) (hj : st id = some j)
    (hterm : j.state.isTerminal = true) :
    storeApplyAll st id ops id = some j :=
  storeApplyAll_terminal id j hterm ops st hj

/-- A concrete succeeded job. -/
def jobDoneW : Job :=
  ⟨1, 2, "doc.pdf", .succeeded, some "result.docx", none, 10, 20⟩

/-- A store holding `jobDoneW` under id 1. -/
def storeW : JobStore := fun i => if i = 1 then some jobDoneW else none

/-- Duplicate completion, failure and running reports arriving after
the terminal commit. -/
def opsW : List JobOp :=
  [.opComplete "dup.docx" 30, .opFail "boom" 40, .opRun 50,
   .opComplete "late.docx" 60]

/-- C1 witness: the concrete terminal record absorbs a concrete
sequence of late writes unchanged. -/
theorem C1_witness : storeApplyAll storeW 1 opsW 1 = some jobDoneW :=
  C1_terminal_writes_noop storeW 1 jobDoneW opsW (by decide) (by decide)

/-- C2: the first-ever admission at time `t` sets `window_start` to the
start of the calendar period containing `t` (not a rolling window from
signup) and evaluates the quota check with the full period limit
available (`used` starting from 0, so the attempt is admitted iff
`units ≤ limit`); and an admission attempt lying in a later calendar
period than `window_start` first resets the entry — behaving exactly
like a first-ever admission — before the quota check is evaluated, so
the rollover boundary is the calendar period start, identical for every
user. -/
theorem C2_calendar_window (t : QTime) (units limit : Nat)
    (e : LedgerEntry) (hlater : e.window_start.period < t.period) :
    (tryAdmitUnits none t units limit).1.window_start = t.periodStart ∧
    ((tryAdmitUnits none t units limit).2 = .admitted ↔ units ≤ limit) ∧
    tryAdmitUnits (some e) t units limit = tryAdmitUnits none t units limit := by
  refine ⟨?_, ?_, ?_⟩
  · by_cases h : units ≤ limit <;>
      simp [tryAdmitUnits, rolloverEntry, h]
  · by_cases h : units ≤ limit <;>
      simp [tryAdmitUnits, rolloverEntry, h]
  · have hne : e.window_start.period ≠ t.period := by omega
    simp [tryAdmitUnits, rolloverEntry, hne]

/-- C2 witness: a first admission on day 27 of period 5 anchors the
window at the period start, and an entry left from period 4 is treated
exactly like a fresh one. -/
theorem C2_witness :
    (tryAdmitUnits none ⟨5, 27⟩ 1 100).1.window_start =
      QTime.periodStart ⟨5, 27⟩ ∧
    tryAdmitUnits (some ⟨⟨4, 0⟩, 99⟩) ⟨5, 27⟩ 1 100 =
      tryAdmitUnits none ⟨5, 27⟩ 1 100 := by
  have h := C2_calendar_window ⟨5, 27⟩ 1 100 ⟨⟨4, 0⟩, 99⟩ (by decide)
  exact ⟨h.1, h.2.2⟩

/-- C3: every execution of the client polling protocol terminates with
an outcome after at most `maxAttempts = 30` calls to `getReport`, and
its trace consists exactly of (wait one `pollInterval = 2000` ms, then
query) pairs, so each query is preceded by exactly one fixed
poll-interval wait. -/
theorem C3_bounded_polling (s : Nat → QueryResult) :
    countQueries (pollReportStatus s).1 ≤ maxAttempts ∧
    alternatingWQ (pollReportStatus s).1 = true ∧
    maxAttempts = 30 ∧ pollInterval = 2000 := by
  have h := pollFrom_alternating s maxAttempts 0 none
  exact ⟨h.2, h.1, rfl, rfl⟩

/-- C4 counterexample: the run observing `pending` on the first 29
attempts and the non-terminal (Running) status `processing` on the
30th uses the whole attempt budget with every observation non-terminal,
yet the protocol fulfills with the report instead of surfacing the
taking-longer-than-expected rejection. -/
theorem C4_counterexample :
    countQueries (pollReportStatus seqLateProcessing).1 = maxAttempts ∧
    (((List.range maxAttempts).map fun j => seqLateProcessing (j + 1)).all
      nonTerminalB) = true ∧
    (pollReportStatus seqLateProcessing).2 = .fulfilled (some "processing") ∧
    (pollReportStatus seqLateProcessing).2 ≠ .rejectedTimeout timeoutMsg := by
  decide

/-- C4 (amended): for every polling run in which all attempts up to the
budget observe the status `pending` — the sole status the loop treats
as still-in-progress; an attempt observing a non-`pending` non-terminal
status such as `processing` instead ends the run with the report
returned — the protocol exhausts the 30-attempt budget and surfaces the
distinct taking-longer-than-expected rejection, which is not the
`Failed` outcome (it differs from every fulfilled report); the run
performs only timer waits and `getReport` reads, so no server-side job
state is mutated by the give-up and a still-pending job can afterwards
still be completed and observed terminal by a fresh `Get`. -/
theorem C4_amended_timeout_outcome (s : Nat → QueryResult)
    (hp : ∀ i, 1 ≤ i → i ≤ maxAttempts → s i = .ok "pending") :
    (pollReportStatus s).2 = .rejectedTimeout timeoutMsg ∧
    countQueries (pollReportStatus s).1 = maxAttempts ∧
    (∀ r, Outcome.rejectedTimeout timeoutMsg ≠ .fulfilled r) ∧
    ((pollReportStatus s).1.all fun e => isWaitEvent e || isQueryEvent e)
      = true ∧
    (∀ (j : Job) (r : String) (now : Nat), j.state = .pending →
      (complete j r now).state = .succeeded) := by
  have h := pollFrom_timeout s maxAttempts 0 none (Nat.zero_add _)
    (fun i h1 h2 => hp i (by omega) h2)
  refine ⟨h.1, h.2, ?_, ?_, ?_⟩
  · intro r hr
    exact Outcome.noConfusion hr
  · exact List.all_eq_true.mpr (fun e he => by cases e <;> rfl)
  · intro j r now hjs
    simp [complete, hjs, JobState.isTerminal]

/-- C4 witness: the all-`pending` run times out after the full budget
with the distinct rejection. -/
theorem C4_witness :
    (pollReportStatus seqAllPending).2 = .rejectedTimeout timeoutMsg ∧
    countQueries (pollReportStatus seqAllPending).1 = maxAttempts :=
  ⟨(C4_amended_timeout_outcome seqAllPending (fun _ _ _ => rfl)).1,
   (C4_amended_timeout_outcome seqAllPending (fun _ _ _ => rfl)).2.1⟩

/-- C5 counterexample: on the run whose first query fails transiently
while every later query would return the terminal status `processed`,
the polling sequence IS aborted: it rejects with the in-loop
query-error message after a single query, so the final outcome is not
determined by the statuses of the remaining attempts. -/
theorem C5_counterexample :
    (pollReportStatus seqFirstFails).2 = .rejectedQueryError pollFailMsg ∧
    countQueries (pollReportStatus seqFirstFails).1 = 1 ∧
    seqFirstFails 2 = .ok "processed" ∧
    (pollReportStatus seqFirstFails).2 ≠ .fulfilled (some "processed") := by
  decide

/-- C5 (amended): a single transient query failure aborts the whole
polling sequence: if the attempts before `k` observe `pending` and the
`k`-th query throws, the run stops at query `k` and rejects with
"Failed to check report status during polling."; the failure is itself
the terminal outcome of the run and no later attempt is made. -/
theorem C5_amended_failure_aborts (s : Nat → QueryResult) (k : Nat)
    (h1 : 1 ≤ k) (h2 : k ≤ maxAttempts)
    (hp : ∀ i, 1 ≤ i → i < k → s i = .ok "pending")
    (hk : s k = .failure) :
    (pollReportStatus s).2 = .rejectedQueryError pollFailMsg ∧
    countQueries (pollReportStatus s).1 = k := by
  obtain ⟨ha, hb⟩ := pollFrom_firstFailure s maxAttempts 0 none k (by omega)
    (by omega) (by omega) (fun i hi1 hi2 => hp i (by omega) hi2) hk
  simp only [pollReportStatus]
  exact ⟨ha, by omega⟩

/-- C5 witness: a failure on the very first query rejects after exactly
one query. -/
theorem C5_witness :
    (pollReportStatus seqFirstFails).2 = .rejectedQueryError pollFailMsg ∧
    countQueries (pollReportStatus seqFirstFails).1 = 1 :=
  C5_amended_failure_aborts seqFirstFails 1 (le_refl 1) (by decide)
    (fun i hi1 hi2 => absurd (lt_of_le_of_lt hi1 hi2) (lt_irrefl 1))
    (by decide)

/-- C6 counterexample: on the run observing the non-terminal (Running)
status `processing` at the very first attempt, the loop stops after a
single query — well before the 30-attempt budget — and returns the
report, although `processing` is neither `Succeeded` nor `Failed`: the
loop does not repeat on every non-terminal observation. -/
theorem C6_counterexample :
    countQueries (pollReportStatus seqAllProcessing).1 = 1 ∧
    1 < maxAttempts ∧
    (pollReportStatus seqAllProcessing).2 = .fulfilled (some "processing") ∧
    nonTerminalB (.ok "processing") = true := by
  decide

/-- C6 (amended): the polling loop stops before its attempt budget
exactly at the first non-`pending` observation, whatever that status is
— terminal (`processed`/`failed`) or the non-terminal `processing` —
returning the report; only on a `pending` observation does it wait one
interval and repeat, counting the attempt: with `pending` observed
before attempt `k ≤ 30` and a non-`pending` status `st` at attempt `k`,
the run makes exactly `k` queries and fulfills with that report. -/
theorem C6_amended_stops_on_nonpending (s : Nat → QueryResult) (k : Nat)
    (st : String) (h1 : 1 ≤ k) (h2 : k ≤ maxAttempts)
    (hp : ∀ i, 1 ≤ i → i < k → s i = .ok "pending")
    (hk : s k = .ok st) (hst : st ≠ "pending") :
    (pollReportStatus s).2 = .fulfilled (some st) ∧
    countQueries (pollReportStatus s).1 = k := by
  obtain ⟨ha, hb⟩ := pollFrom_firstOk s maxAttempts 0 none k st (by omega)
    (by omega) (by omega) (fun i hi1 hi2 => hp i (by omega) hi2) hk hst
  simp only [pollReportStatus]
  exact ⟨ha, by omega⟩

/-- C6 witness: 29 `pending` observations followed by a `processing`
one give a 30-query run fulfilled with the `processing` report. -/
theorem C6_witness :
    (pollReportStatus seqLateProcessing).2 = .fulfilled (some "processing") ∧
    countQueries (pollReportStatus seqLateProcessing).1 = 30 :=
  C6_amended_stops_on_nonpending seqLateProcessing 30 "processing"
    (by decide) (by decide)
    (fun i hi1 hi2 => by unfold seqLateProcessing; rw [if_pos (by omega)])
    (by decide) (by decide)

/-- C7: a quota denial (HTTP 429) on the valuation or upload endpoint
surfaces as an immediate, distinct limit-exceeded rejection — the
server's `detail` string when present, else the endpoint's default
monthly-limit message, each default distinct from the generic-failure
and unexpected-error messages — and the thunk issues exactly one
request, never retrying automatically. -/
theorem C7_quota_denial_distinct (d m : Option String)
    (svc : Nat → Except ApiFailure String) :
    triggerValuationResult (.error (.http 429 d m)) =
      .rejected (jsOr d monthlyValuationLimitMsg) ∧
    uploadPdfResult (.error (.http 429 d m)) =
      .rejected (jsOr d monthlyUploadLimitMsg) ∧
    monthlyValuationLimitMsg ≠ valuationFailMsg ∧
    monthlyValuationLimitMsg ≠ valuationUnexpectedMsg ∧
    monthlyUploadLimitMsg ≠ uploadFailMsg ∧
    monthlyUploadLimitMsg ≠ uploadUnexpectedMsg ∧
    (triggerValuationRun svc).1 = 1 ∧ (uploadPdfRun svc).1 = 1 := by
  exact ⟨rfl, rfl, by decide, by decide, by decide, by decide, rfl, rfl⟩

/-- C8: with exactly one unit of quota remaining (`used + 1 = limit`,
window in the current calendar period), among `n ≥ 1` concurrent unit
admissions for the owner — serialized into consecutive atomic steps as
the spec's concurrency contract mandates — exactly one call is
admitted, the other `n - 1` are denied with `quota_exceeded`, and
`used` ends at exactly `limit`, never exceeding it. -/
theorem C8_no_overshoot (e : LedgerEntry) (t : QTime) (L n : Nat)
    (hp : e.window_start.period = t.period) (hu : e.used + 1 = L)
    (hn : 1 ≤ n) :
    ((runConcurrent e t L n).2.count .admitted = 1) ∧
    ((runConcurrent e t L n).2.count (.denied "quota_exceeded") = n - 1) ∧
    ((runConcurrent e t L n).2.length = n) ∧
    (runConcurrent e t L n).1.used = L := by
  obtain ⟨m, rfl⟩ : ∃ m, n = m + 1 := ⟨n - 1, by omega⟩
  have hc : e.used + 1 ≤ L := le_of_eq hu
  have hstep : tryAdmitUnits (some e) t 1 L =
      ({ e with used := e.used + 1 }, .admitted) := by
    simp [tryAdmitUnits, rolloverEntry, hp, hc]
  have hfull : L < ({ e with used := e.used + 1 } : LedgerEntry).used + 1 := by
    show L < e.used + 1 + 1
    omega
  have hrest := runConcurrent_exhausted t L m { e with used := e.used + 1 }
    hp hfull
  have hbe : (AdmitResult.denied "quota_exceeded" == AdmitResult.admitted)
      = false := by decide
  have hbe' : (AdmitResult.admitted == AdmitResult.denied "quota_exceeded")
      = false := by decide
  simp only [runConcurrent, hstep, hrest]
  refine ⟨?_, ?_, ?_, ?_⟩
  · simp [List.count_cons, List.count_replicate, hbe, hbe']
  · simp [List.count_cons, List.count_replicate, hbe, hbe']
  · simp
  · show e.used + 1 = L
    exact hu

/-- C8 witness: limit 5, `used = 4`, 7 concurrent unit admissions —
one admitted, six denied, final `used = 5`. -/
theorem C8_witness :
    ((runConcurrent ⟨⟨3, 5⟩, 4⟩ ⟨3, 9⟩ 5 7).2.count .admitted = 1) ∧
    ((runConcurrent ⟨⟨3, 5⟩, 4⟩ ⟨3, 9⟩ 5 7).2.count
      (.denied "quota_exceeded") = 6) ∧
    ((runConcurrent ⟨⟨3, 5⟩, 4⟩ ⟨3, 9⟩ 5 7).2.length = 7) ∧
    (runConcurrent ⟨⟨3, 5⟩, 4⟩ ⟨3, 9⟩ 5 7).1.used = 5 :=
  C8_no_overshoot ⟨⟨3, 5⟩, 4⟩ ⟨3, 9⟩ 5 7 rfl rfl (by decide)

/-- C9 counterexample: the two `pollReportStatus` implementations
disagree on the all-`pending` status sequence: `part_013` returns the
still-pending report after one query, while `searchSlice.ts` polls the
full 30-attempt budget and rejects with its timeout message — different
outcome and different query count, so they are not observationally
equivalent. -/
theorem C9_counterexample :
    (pollReportStatus13 seqAllPending).2 = .fulfilled (some "pending") ∧
    countQueries (pollReportStatus13 seqAllPending).1 = 1 ∧
    (pollReportStatus seqAllPending).2 = .rejectedTimeout timeoutMsg ∧
    countQueries (pollReportStatus seqAllPending).1 = 30 := by
  decide

/-- C9 (amended): the two implementations are not observationally
equivalent on equal status sequences; they correspond exactly up to
renaming the looped-on status (`processing` in `part_013`, `pending` in
`searchSlice.ts`): for every query-result sequence, `part_013` on the
sequence and `searchSlice.ts` on its `statusSwap` renaming produce
outcomes of the same kind — returned reports related by the renaming,
timeout rejections, or query-error rejections, with different rejection
message texts — after the same number of `getReport` queries; wait
placement also differs (`part_013` waits after each query,
`searchSlice.ts` before). -/
theorem C9_amended_swap_equivalence (s : Nat → QueryResult) :
    outcomeRel (pollReportStatus13 s).2
      (pollReportStatus (fun i => swapQR (s i))).2 ∧
    countQueries (pollReportStatus13 s).1 =
      countQueries (pollReportStatus (fun i => swapQR (s i))).1 :=
  pollRel s maxAttempts 0 none (by omega)

/-- C10: every value the upload progress handler dispatches is a
well-defined finite number: the divisor is `progressEvent.total`,
falling back to `file.size` when `total` is absent or zero; the
rounding division runs only for a strictly positive divisor and yields
a number, and with a zero effective divisor the handler dispatches 0 —
so the non-finite result of a zero divisor (modelled as `none`) never
reaches `setProgress`. -/
theorem C10_progress_well_defined (loaded fileSize n : Nat)
    (total : Option Nat) :
    (uploadProgressEvent loaded total fileSize).isSome = true ∧
    uploadProgressEvent loaded (some 0) fileSize =
      uploadProgressEvent loaded none fileSize ∧
    uploadProgressEvent loaded none 0 = some 0 ∧
    uploadProgressEvent loaded (some (n + 1)) fileSize =
      jsRoundDiv (loaded * 100) (n + 1) ∧
    (jsRoundDiv (loaded * 100) (n + 1)).isSome = true := by
  refine ⟨?_, ?_, ?_, ?_, ?_⟩
  · unfold uploadProgressEvent
    by_cases h : 0 < jsOrNum total fileSize
    · simp [h, jsRoundDiv, Nat.pos_iff_ne_zero.mp h]
    · simp [h]
  · rfl
  · rfl
  · unfold uploadProgressEvent
    simp [jsOrNum]
  · simp [jsRoundDiv]

end FinancialsAI



